import Mathlib

/-!
# Verification of the analysis-session viewer core

Shallow embedding of the analysis routes module (session identity parser,
safe artifact readers, session summary / detail builders, list and detail
route handlers) and of the JSON card renderer, together with theorems
checking the specification's claims against these definitions.

Strings are modelled as `List Char`.  The filesystem and `JSON.parse` are
external runtime primitives; they are modelled as oracles (pure functions
giving each syscall's result on each path, i.e. a fixed snapshot of the
world), which is exactly the interface the code consumes.  JavaScript
numbers are modelled as `Int`; none of the claims depends on
floating-point behaviour.
-/

namespace CCW

/-- Characters of a JavaScript string. -/
abbrev Chars := List Char

/-- The character list of a string literal. -/
def chars (s : String) : Chars := s.data

/-- A JavaScript value as produced by `JSON.parse`, plus `undefined`
(which property access on a missing key yields).  Object fields are kept
in insertion order, as JavaScript objects do. -/
inductive Json where
  | undef : Json
  | null : Json
  | bool (b : Bool) : Json
  | num (n : Int) : Json
  | str (s : Chars) : Json
  | arr (items : List Json) : Json
  | obj (fields : List (Chars × Json)) : Json
deriving Inhabited

/-- JavaScript truthiness (`undefined`, `null`, `false`, `0`, `""` are
falsy; every object and array is truthy). -/
def truthy : Json → Bool
  | .undef => false
  | .null => false
  | .bool b => b
  | .num n => n != 0
  | .str s => !s.isEmpty
  | .arr _ => true
  | .obj _ => true

/-- Last binding of a key in a field list (`JSON.parse` keeps the last
duplicate key, and property lookup sees that binding). -/
def lookupField (k : Chars) : List (Chars × Json) → Option Json
  | [] => none
  | (k', v) :: rest =>
    match lookupField k rest with
    | some v' => some v'
    | none => if k' = k then some v else none

/-- Property access `j?.k` through optional chaining: `undefined` (here
`none`) on `null`/`undefined` receivers and on every non-object value,
the field's value (or `undefined` when absent) on objects. -/
def Json.getField : Json → Chars → Option Json
  | .obj fields, k => lookupField k fields
  | _, _ => none

/-- An error thrown by a runtime primitive; only its message is
observable (it surfaces in the 500 envelope). -/
structure JsError where
  message : Chars
deriving DecidableEq

/-- Result of `fs.stat`. -/
structure StatInfo where
  isDirectory : Bool
deriving DecidableEq

/-- Oracle for the filesystem primitives the module calls: `existsSync`,
`readFile`, `stat`, `readdir`.  Fallible calls return `Except`, the
`.error` case standing for a thrown exception. -/
structure Fs where
  fsExists : Chars → Bool
  readFileRes : Chars → Except JsError Chars
  statRes : Chars → Except JsError StatInfo
  readdirRes : Chars → Except JsError (List Chars)

/-- Oracle environment: the filesystem plus `JSON.parse` (whose `.error`
case stands for a thrown `SyntaxError`). -/
structure Env where
  fs : Fs
  jsonParse : Chars → Except JsError Json

/-- `path.join(a, b)`: paths are opaque oracle keys, so the separator
concatenation is all that matters. -/
def pjoin (a b : Chars) : Chars := a ++ '/' :: b

/-! ## Artifact reader (`readJsonFile`, `readTextFile`) -/

/-- Body of `readJsonFile` before its `catch`: missing file returns
`null` without throwing; `readFile` and `JSON.parse` may throw. -/
def readJsonFileAttempt (env : Env) (filePath : Chars) : Except JsError Json :=
  if env.fs.fsExists filePath = false then .ok .null
  else
    match env.fs.readFileRes filePath with
    | .error e => .error e
    | .ok content => env.jsonParse content

/-- `readJsonFile`: the `catch` collapses every thrown error to `null`.
The result is the parsed value (any JSON value) or `null`. -/
def readJsonFile (env : Env) (filePath : Chars) : Json :=
  match readJsonFileAttempt env filePath with
  | .error _ => .null
  | .ok v => v

/-- Body of `readTextFile` before its `catch`. -/
def readTextFileAttempt (env : Env) (filePath : Chars) : Except JsError (Option Chars) :=
  if env.fs.fsExists filePath = false then .ok none
  else
    match env.fs.readFileRes filePath with
    | .error e => .error e
    | .ok content => .ok (some content)

/-- `readTextFile`: the file's text, or `null` on a missing file or any
thrown error. -/
def readTextFile (env : Env) (filePath : Chars) : Option Chars :=
  match readTextFileAttempt env filePath with
  | .error _ => none
  | .ok v => v

/-! ## Session identity parser (`parseSessionId`)

The source matches the folder name against the regular expression
`^ANL-(.+)-(\d{4}-\d{2}-\d{2})$`.  `\d` is `[0-9]`; `.` (no `s` flag)
matches every character except the four line terminators; `.+` is greedy,
so backtracking tries the longest slug first. -/

/-- What the regex metacharacter `.` matches (no `s` flag): everything
but a line terminator. -/
def jsDot (c : Char) : Bool :=
  !(c = '\n' || c = '\r' || c = '\u2028' || c = '\u2029')

/-- The trailing group `\d{4}-\d{2}-\d{2}` matched against an entire
remainder: exactly ten characters shaped `YYYY-MM-DD`. -/
def dateShaped : Chars → Bool
  | [a, b, c, d, e, f, g, h, i, j] =>
    a.isDigit && b.isDigit && c.isDigit && d.isDigit && e = '-' &&
      f.isDigit && g.isDigit && h = '-' && i.isDigit && j.isDigit
  | _ => false

/-- Greedy backtracking over the slug length for
`(.+)-(\d{4}-\d{2}-\d{2})$` against `mid` (the name after the prefix):
try slug length `k`, then shorter.  A candidate succeeds when the slug is
all dot-class characters and the whole remainder is `-` followed by a
date-shaped token (the `$` anchor makes the remainder the whole rest). -/
def greedyMatch (mid : Chars) : Nat → Option (Chars × Chars)
  | 0 => none
  | k + 1 =>
    match mid.drop (k + 1) with
    | '-' :: rest =>
      if (mid.take (k + 1)).all jsDot && dateShaped rest then
        some (mid.take (k + 1), rest)
      else greedyMatch mid k
    | _ => greedyMatch mid k

/-- `parseSessionId`: match the folder name against
`^ANL-(.+)-(\d{4}-\d{2}-\d{2})$`, returning `{slug, date}` on a match and
`null` otherwise. -/
def parseSessionId (folderName : Chars) : Option (Chars × Chars) :=
  if folderName.take 4 = chars "ANL-" then
    greedyMatch (folderName.drop 4) (folderName.length - 4)
  else none

/-! ## Session repository -/

/-- Session lifecycle status. -/
inductive Status where
  | inProgress : Status
  | completed : Status
deriving DecidableEq

/-- `AnalysisSessionSummary`.  The `topic` field is declared `string` in
the source, but the value actually stored is whatever
`conclusions?.topic` held when truthy, so it is modelled as `Json`. -/
structure AnalysisSessionSummary where
  id : Chars
  name : Chars
  topic : Json
  createdAt : Chars
  status : Status
  hasConclusions : Bool

/-- `AnalysisSessionDetail`.  Absent artifacts are `null` (`none` for the
text document, `Json.null` for the structured ones, as in the source). -/
structure AnalysisSessionDetail where
  id : Chars
  name : Chars
  topic : Json
  createdAt : Chars
  status : Status
  discussion : Option Chars
  conclusions : Json
  explorations : Json
  perspectives : Json

/-- The slug with separators replaced by spaces: `parsed.slug.replace`
with the global regex matching `-` and replacement `' '`. -/
def slugSpaces (slug : Chars) : Chars :=
  slug.map (fun c => if c = '-' then ' ' else c)

/-- `(conclusions?.topic as string) || slugSpaces`:
the topic field's value when it is present and truthy, else the
slug-derived fallback.  `conclusions` is the (possibly `null`) parsed
conclusions value. -/
def deriveTopic (conclusions : Json) (slug : Chars) : Json :=
  match conclusions.getField (chars "topic") with
  | some v => if truthy v then v else .str (slugSpaces slug)
  | none => .str (slugSpaces slug)

/-- The conclusions artifact's path inside a session directory
(`join(sessionPath, 'conclusions.json')`). -/
def concPath (analysisDir name : Chars) : Chars :=
  pjoin (pjoin analysisDir name) (chars "conclusions.json")

/-- `getSessionSummary`: `null` (`.ok none`) for a non-matching name or
a non-directory entry; a thrown `stat` error propagates (`.error`); the
conclusions read never throws.  The source's local `const` bindings
(`sessionPath`, `conclusionsPath`, `hasConclusions`, `conclusions`) are
inlined. -/
def getSessionSummary (env : Env) (analysisDir folderName : Chars) :
    Except JsError (Option AnalysisSessionSummary) :=
  match parseSessionId folderName with
  | none => .ok none
  | some (slug, date) =>
    match env.fs.statRes (pjoin analysisDir folderName) with
    | .error e => .error e
    | .ok folderStat =>
      if folderStat.isDirectory = false then .ok none
      else
        .ok (some
          { id := folderName
            name := folderName
            topic := deriveTopic
              (if env.fs.fsExists (concPath analysisDir folderName) then
                readJsonFile env (concPath analysisDir folderName)
              else .null) slug
            createdAt := date
            status :=
              if env.fs.fsExists (concPath analysisDir folderName) then .completed
              else .inProgress
            hasConclusions := env.fs.fsExists (concPath analysisDir folderName) })

/-- `getSessionDetail`: `null` when the identifier does not parse or the
session directory does not exist; otherwise the four artifact reads (all
total) and the assembled record.  The reads are issued through
`Promise.all`; with the oracle snapshot their order is irrelevant. -/
def getSessionDetail (env : Env) (analysisDir sessionId : Chars) :
    Option AnalysisSessionDetail :=
  match parseSessionId sessionId with
  | none => none
  | some (slug, date) =>
    if env.fs.fsExists (pjoin analysisDir sessionId) = false then none
    else
      some
        { id := sessionId
          name := sessionId
          topic := deriveTopic (readJsonFile env (concPath analysisDir sessionId)) slug
          createdAt := date
          status :=
            if truthy (readJsonFile env (concPath analysisDir sessionId)) then .completed
            else .inProgress
          discussion := readTextFile env (pjoin (pjoin analysisDir sessionId) (chars "discussion.md"))
          conclusions := readJsonFile env (concPath analysisDir sessionId)
          explorations := readJsonFile env (pjoin (pjoin analysisDir sessionId) (chars "explorations.json"))
          perspectives := readJsonFile env (pjoin (pjoin analysisDir sessionId) (chars "perspectives.json")) }

/-! ## Route handlers -/

/-- Outcome of the list route: the 200 success envelope
(`{success: true, data, total: data.length}`) or the 500 failure
envelope carrying the thrown error's message. -/
inductive ListResult where
  | success (sessions : List AnalysisSessionSummary) : ListResult
  | failure (e : JsError) : ListResult

/-- Outcome of the detail route: 404 not-found envelope or 200 success
envelope. -/
inductive DetailResult where
  | notFound : DetailResult
  | success (d : AnalysisSessionDetail) : DetailResult

/-- The `for` loop of the list route: summaries accumulated in
enumeration order, a thrown per-folder error propagating to the
enclosing `catch`. -/
def collectSummaries (env : Env) (analysisDir : Chars) :
    List Chars → Except JsError (List AnalysisSessionSummary)
  | [] => .ok []
  | folder :: rest => do
    let s ← getSessionSummary env analysisDir folder
    let others ← collectSummaries env analysisDir rest
    pure (match s with | some x => x :: others | none => others)

/-- Lexicographic (code-point) order on character lists.  The source
compares `createdAt` values with `localeCompare`; on these strings —
equal-length `YYYY-MM-DD` tokens with digits and hyphens at the same
positions — locale collation coincides with code-point order. -/
def lexLe : Chars → Chars → Bool
  | [], _ => true
  | _ :: _, [] => false
  | a :: as, b :: bs => if a < b then true else if b < a then false else lexLe as bs

/-- The sort comparator `(a, b) => b.createdAt.localeCompare(a.createdAt)`
as the relation "`a` may precede `b`": descending by `createdAt`. -/
def byDateDesc (a b : AnalysisSessionSummary) : Prop :=
  lexLe b.createdAt a.createdAt = true

instance : DecidableRel byDateDesc := fun a b => by
  unfold byDateDesc; infer_instance

/-- The list route given the resolved analysis directory (transport and
project-path resolution are out of scope).  `Array.prototype.sort` is
stable (ES2019); the stable sort of a list under a total preorder is
unique, so `List.insertionSort` models it exactly. -/
def listSessions (env : Env) (analysisDir : Chars) : ListResult :=
  if env.fs.fsExists analysisDir = false then .success []
  else
    match env.fs.readdirRes analysisDir with
    | .error e => .failure e
    | .ok folders =>
      match collectSummaries env analysisDir folders with
      | .error e => .failure e
      | .ok sessions => .success (sessions.insertionSort byDateDesc)

/-- The detail route given the resolved analysis directory and the
URL-decoded session identifier. -/
def detailRoute (env : Env) (analysisDir sessionId : Chars) : DetailResult :=
  match getSessionDetail env analysisDir sessionId with
  | none => .notFound
  | some d => .success d

/-! ## Structured data renderer (`JsonCardView`)

The render tree records the display shape each sub-component produces;
CSS classes, the `depth` prop (which only selects an indentation class)
and the icon glyphs carry no information and are not modelled.  A badge
or string-coercion node records the value whose `String(...)` coercion
it displays. -/

/-- Display shapes produced by the card view's sub-components. -/
inductive RenderNode where
  /-- `null` / `undefined`: the explicit italic `null` marker. -/
  | nullMarker : RenderNode
  /-- Boolean: two-state badge. -/
  | boolBadge (b : Bool) : RenderNode
  /-- Number: verbatim monospace text. -/
  | numberText (n : Int) : RenderNode
  /-- URL-prefixed string: anchor link. -/
  | link (s : Chars) : RenderNode
  /-- Long string: pre-wrapped block preserving whitespace. -/
  | preWrapped (s : Chars) : RenderNode
  /-- Remaining strings: inline text. -/
  | inlineText (s : Chars) : RenderNode
  /-- `PrimitiveValue`'s final fallback: the `String(value)` coercion. -/
  | stringCoercion (v : Json) : RenderNode
  /-- Empty array: explicit "Empty list" marker. -/
  | emptyList : RenderNode
  /-- All-primitive array: compact badges, one per element, in order. -/
  | badgeRow (items : List Json) : RenderNode
  /-- Mixed array: collapsible list of (1-based display index, child). -/
  | indexedList (expanded : Bool) (entries : List (Nat × RenderNode)) : RenderNode
  /-- Empty object: explicit "Empty object" marker. -/
  | emptyObject : RenderNode
  /-- Non-empty object: (formatted label, child) per entry, in insertion
  order. -/
  | objectCard (entries : List (Chars × RenderNode)) : RenderNode

/-- `isObject`: a non-null, non-array object. -/
def isObjectVal : Json → Bool
  | .obj _ => true
  | _ => false

/-- The `ArrayView` primitive test
`typeof item !== 'object' || item === null`: everything except arrays
and objects (`null` and `undefined` included). -/
def isPrimitiveVal : Json → Bool
  | .obj _ => false
  | .arr _ => false
  | _ => true

/-- Whether the string starts with `http://` or `https://`. -/
def isUrlString (s : Chars) : Bool :=
  (chars "http://").isPrefixOf s || (chars "https://").isPrefixOf s

/-- `PrimitiveValue`: classify a value into its display shape.  The
branches are tried in source order: null/undefined, boolean, number,
string (URL, then length threshold, then inline), then the `String(value)`
fallback. -/
def renderPrimitive : Json → RenderNode
  | .undef => .nullMarker
  | .null => .nullMarker
  | .bool b => .boolBadge b
  | .num n => .numberText n
  | .str s =>
    if isUrlString s then .link s
    else if 100 < s.length then .preWrapped s
    else .inlineText s
  | .arr items => .stringCoercion (.arr items)
  | .obj fields => .stringCoercion (.obj fields)

/-- `formatLabel`: underscores to spaces, a space before each upper-case
letter, first character upper-cased (the regex `^.` does not match a
leading line terminator), then trimmed.  `Char.toUpper` / `isWhitespace`
approximate the JavaScript Unicode behaviour; no claim depends on it. -/
def formatLabel (key : Chars) : Chars :=
  let spaced := (key.map (fun c => if c = '_' then ' ' else c)).flatMap
    (fun c => if c.isUpper then [' ', c] else [c])
  let upped :=
    match spaced with
    | [] => []
    | c :: rest => if jsDot c then c.toUpper :: rest else c :: rest
  (upped.dropWhile Char.isWhitespace).reverse.dropWhile Char.isWhitespace |>.reverse

mutual

/-- `ArrayView`: the empty marker, the all-primitive badge row, or the
default-expanded indexed list with 1-based display indices. -/
def renderArray (items : List Json) : RenderNode :=
  if items.isEmpty then .emptyList
  else if items.all isPrimitiveVal then .badgeRow items
  else .indexedList true
    (List.enumFrom 1 (items.attach.map (fun x => renderElement x.1)))
termination_by (sizeOf items, 0)
decreasing_by
  have := List.sizeOf_lt_of_mem x.2
  simp only [Prod.lex_def]
  omega

/-- An element of a mixed array: `isObject(item) ? ObjectView :
PrimitiveValue` (note: a nested array is not an object, so it falls to
`PrimitiveValue`). -/
def renderElement (item : Json) : RenderNode :=
  match item with
  | .obj fields => renderObject fields
  | v => renderPrimitive v
termination_by (sizeOf item, 1)
decreasing_by
  simp only [Prod.lex_def]
  simp

/-- `ObjectView`: the empty marker or one `CardItem` per entry in
insertion order. -/
def renderObject (fields : List (Chars × Json)) : RenderNode :=
  if fields.isEmpty then .emptyObject
  else .objectCard (fields.attach.map (fun x => renderCardItem x.1.1 x.1.2))
termination_by (sizeOf fields, 0)
decreasing_by
  simp only [Prod.lex_def]
  have h1 := List.sizeOf_lt_of_mem x.2
  obtain ⟨⟨k, v⟩, hx⟩ := x
  simp_all
  omega

/-- `CardItem`: the formatted label plus the child view chosen by shape
(nested object → `ObjectView`, array → `ArrayView`, else
`PrimitiveValue`). -/
def renderCardItem (key : Chars) (value : Json) : Chars × RenderNode :=
  (formatLabel key,
    match value with
    | .obj fields => renderObject fields
    | .arr items => renderArray items
    | v => renderPrimitive v)
termination_by (sizeOf value, 1)
decreasing_by
  all_goals simp only [Prod.lex_def]
  all_goals simp

end

/-- `JsonCardView` root dispatch: falsy data renders the "No data
available" marker (`none` here); an array root goes to `ArrayView`,
everything else to `ObjectView` (whose `Object.entries` of a primitive
is empty). -/
def renderRoot (data : Json) : Option RenderNode :=
  if truthy data = false then none
  else
    match data with
    | .arr items => some (renderArray items)
    | .obj fields => some (renderObject fields)
    | _ => some (renderObject [])

/-! ## Shared lemmas -/

/-- Unfolding lemma for `renderArray` without the termination `attach`. -/
theorem renderArray_def (items : List Json) :
    renderArray items =
      if items.isEmpty then .emptyList
      else if items.all isPrimitiveVal then .badgeRow items
      else .indexedList true (List.enumFrom 1 (items.map renderElement)) := by
  rw [renderArray]
  simp only [List.attach_map_val]

/-- Unfolding lemma for `renderObject` without the termination `attach`. -/
theorem renderObject_def (fields : List (Chars × Json)) :
    renderObject fields =
      if fields.isEmpty then .emptyObject
      else .objectCard (fields.map (fun p => renderCardItem p.1 p.2)) := by
  rw [renderObject]
  rw [List.map_attach]
  rw [show (fun (a : Chars × Json) (h : a ∈ fields) => renderCardItem a.1 a.2)
        = (fun a _ => (fun p : Chars × Json => renderCardItem p.1 p.2) a) from rfl]
  rw [List.pmap_eq_map]

/-- A date-shaped token has exactly ten characters. -/
theorem dateShaped_length {s : Chars} (h : dateShaped s = true) : s.length = 10 := by
  unfold dateShaped at h
  split at h
  · simp_all
  · exact absurd h (by simp)

/-- Soundness of the greedy backtracking: a successful match decomposes
`mid` into a dot-class nonempty slug, the separator, and a date token. -/
theorem greedyMatch_sound :
    ∀ k {mid slug date : Chars}, greedyMatch mid k = some (slug, date) →
      mid = slug ++ '-' :: date ∧ slug ≠ [] ∧ slug.all jsDot = true ∧
        dateShaped date = true := by
  intro k
  induction k with
  | zero => intro mid slug date h; simp [greedyMatch] at h
  | succ k ih =>
    intro mid slug date h
    unfold greedyMatch at h
    split at h
    · next rest heq =>
      by_cases hc : (mid.take (k + 1)).all jsDot && dateShaped rest
      · rw [if_pos hc] at h
        obtain ⟨h1, h2⟩ := Prod.mk.injEq .. ▸ Option.some.inj h
        subst h1
        subst h2
        have hne : mid.drop (k + 1) ≠ [] := by rw [heq]; simp
        refine ⟨?_, ?_, ?_, ?_⟩
        · conv_lhs => rw [← List.take_append_drop (k + 1) mid]
          rw [heq]
        · intro htake
          rcases List.take_eq_nil_iff.mp htake with h' | h'
          · omega
          · exact hne (by rw [h']; simp)
        · exact (Bool.and_eq_true ..).mp hc |>.1
        · exact (Bool.and_eq_true ..).mp hc |>.2
      · rw [if_neg hc] at h
        exact ih h
    · exact ih h

/-- Completeness of the greedy backtracking: a valid decomposition is
found from any starting slug length at least the real one (longer
candidates fail because the remainder is too short to hold the
separator plus a ten-character date token). -/
theorem greedyMatch_complete {slug date : Chars} (hs : slug ≠ [])
    (hdot : slug.all jsDot = true) (hd : dateShaped date = true) :
    ∀ k, slug.length ≤ k → greedyMatch (slug ++ '-' :: date) k = some (slug, date) := by
  intro k
  induction k with
  | zero => intro hk; exact absurd (List.length_eq_zero.mp (Nat.le_zero.mp hk)) hs
  | succ k ih =>
    intro hk
    rcases eq_or_lt_of_le hk with heq | hlt
    · have hdrop : (slug ++ '-' :: date).drop (k + 1) = '-' :: date := by
        rw [← heq]; exact List.drop_left _ _
      have htake : (slug ++ '-' :: date).take (k + 1) = slug := by
        rw [← heq]; exact List.take_left _ _
      unfold greedyMatch
      rw [hdrop, htake]
      simp [hdot, hd]
    · have hk' : slug.length ≤ k := Nat.lt_succ_iff.mp hlt
      have hd10 := dateShaped_length hd
      unfold greedyMatch
      split
      · next rest heq =>
        have hlen : rest.length < 10 := by
          have := congrArg List.length heq
          simp [List.length_drop, List.length_append] at this
          omega
        have hrest : dateShaped rest = false := by
          cases hrf : dateShaped rest
          · rfl
          · exact absurd (dateShaped_length hrf) (by omega)
        rw [hrest]
        simp only [Bool.and_false, if_neg]
        exact ih hk'
      · exact ih hk'

/-! ## Claim C5 -/

/-- C5: `parseSessionId` returns an identity exactly when the whole
name, anchored at both ends, is the literal prefix `ANL`, a separator, a
non-empty slug of dot-class characters (which may itself contain
separators and date-like substrings), a separator, and a trailing
`YYYY-MM-DD` token; the date is always the final ten characters (the
last date-shaped token wins) and the slug is everything between the
prefix and that token; every non-conforming name yields `none`, never an
error (the function is total by construction). -/
theorem parseSessionId_characterization (name slug date : Chars) :
    (parseSessionId name = some (slug, date) ↔
      (name = chars "ANL-" ++ slug ++ '-' :: date ∧ slug ≠ [] ∧
        slug.all jsDot = true ∧ dateShaped date = true))
    ∧ (parseSessionId name = some (slug, date) →
        date = name.drop (name.length - 10) ∧
          slug = (name.drop 4).take (name.length - 15)) := by
  have hpre : (chars "ANL-").length = 4 := by decide
  have hfwd : parseSessionId name = some (slug, date) →
      name = chars "ANL-" ++ slug ++ '-' :: date ∧ slug ≠ [] ∧
        slug.all jsDot = true ∧ dateShaped date = true := by
    intro h
    unfold parseSessionId at h
    split at h
    · next htake =>
      obtain ⟨hmid, hne, hdot, hd⟩ := greedyMatch_sound _ h
      refine ⟨?_, hne, hdot, hd⟩
      conv_lhs => rw [← List.take_append_drop 4 name]
      rw [htake, hmid]
      simp [List.append_assoc]
    · exact absurd h (by simp)
  have hbwd : (name = chars "ANL-" ++ slug ++ '-' :: date ∧ slug ≠ [] ∧
        slug.all jsDot = true ∧ dateShaped date = true) →
      parseSessionId name = some (slug, date) := by
    rintro ⟨hname, hne, hdot, hd⟩
    have hd10 := dateShaped_length hd
    have hlen : name.length = slug.length + 15 := by
      subst hname
      simp [List.length_append, hd10, hpre]
      omega
    have htake : name.take 4 = chars "ANL-" := by
      subst hname; exact List.take_left' hpre
    have hdrop : name.drop 4 = slug ++ '-' :: date := by
      subst hname; exact List.drop_left' hpre
    unfold parseSessionId
    rw [if_pos htake, hdrop]
    exact greedyMatch_complete hne hdot hd _ (by omega)
  refine ⟨⟨hfwd, hbwd⟩, ?_⟩
  intro h
  obtain ⟨hname, hne, hdot, hd⟩ := hfwd h
  have hd10 := dateShaped_length hd
  have hlen : name.length = slug.length + 15 := by
    subst hname
    simp [List.length_append, hd10, hpre]
    omega
  constructor
  · have hsplit : name = (chars "ANL-" ++ slug ++ ['-']) ++ date := by
      rw [hname]; simp
    rw [hsplit,
      show ((chars "ANL-" ++ slug ++ ['-']) ++ date).length - 10
          = (chars "ANL-" ++ slug ++ ['-']).length from by
        simp [List.length_append, hd10, hpre]
        omega]
    rw [List.drop_left]
  · have hdrop : name.drop 4 = slug ++ '-' :: date := by
      subst hname; exact List.drop_left' hpre
    rw [hdrop, show name.length - 15 = slug.length from by omega]
    exact (List.take_left slug ('-' :: date)).symm

/-- Witness for C5 at a name whose slug itself contains a date-like
substring: the final ten-character token wins. -/
theorem parseSessionId_characterization_witness :
    parseSessionId (chars "ANL-foo-2025-01-02-2026-03-04")
      = some (chars "foo-2025-01-02", chars "2026-03-04")
    ∧ chars "2026-03-04"
      = (chars "ANL-foo-2025-01-02-2026-03-04").drop
          ((chars "ANL-foo-2025-01-02-2026-03-04").length - 10) := by
  have h := parseSessionId_characterization (chars "ANL-foo-2025-01-02-2026-03-04")
    (chars "foo-2025-01-02") (chars "2026-03-04")
  have hm := h.1.mpr (by decide)
  exact ⟨hm, (h.2 hm).1⟩

/-! ## Order lemmas for the sort comparator -/

theorem lexLe_refl (s : Chars) : lexLe s s = true := by
  induction s with
  | nil => rfl
  | cons c rest ih => simp [lexLe, ih]

theorem lexLe_total (a b : Chars) : lexLe a b = true ∨ lexLe b a = true := by
  induction a generalizing b with
  | nil => left; rfl
  | cons c rest ih =>
    cases b with
    | nil => right; rfl
    | cons d bs =>
      rcases lt_trichotomy c d with h | h | h
      · left; simp [lexLe, h]
      · subst h
        rcases ih bs with h' | h'
        · left; simp [lexLe, h']
        · right; simp [lexLe, h']
      · right; simp [lexLe, h]

theorem lexLe_trans : ∀ {a b c : Chars},
    lexLe a b = true → lexLe b c = true → lexLe a c = true := by
  intro a
  induction a with
  | nil => intro b c _ _; rfl
  | cons x as ih =>
    intro b c hab hbc
    cases b with
    | nil => simp [lexLe] at hab
    | cons y bs =>
      cases c with
      | nil => simp [lexLe] at hbc
      | cons z cs =>
        simp only [lexLe] at hab hbc ⊢
        rcases lt_trichotomy x y with hxy | hxy | hxy
        · rcases lt_trichotomy y z with hyz | hyz | hyz
          · simp [lt_trans hxy hyz]
          · subst hyz; simp [hxy]
          · simp [hyz, not_lt_of_lt hyz] at hbc
        · subst hxy
          rcases lt_trichotomy x z with hyz | hyz | hyz
          · simp [hyz]
          · subst hyz
            simp [lt_irrefl] at hab hbc ⊢
            exact ih hab hbc
          · simp [not_lt_of_lt hyz, hyz] at hbc
        · simp [not_lt_of_lt hxy, hxy] at hab

instance : IsTotal AnalysisSessionSummary byDateDesc :=
  ⟨fun a b => lexLe_total b.createdAt a.createdAt⟩

instance : IsTrans AnalysisSessionSummary byDateDesc :=
  ⟨fun _ _ _ hab hbc => lexLe_trans hbc hab⟩

/-! ## Claim C3 -/

/-- C3: `readTextFile` returns the file's text or `null` and
`readJsonFile` the parsed value or `null`; both are total (the `catch`
absorbs every thrown error), and a missing file, a read (e.g.
permissions) failure, and a malformed document all collapse to the same
absent result, indistinguishable to the caller. -/
theorem readers_collapse_failures (env : Env) (p : Chars) :
    (env.fs.fsExists p = false →
      readTextFile env p = none ∧ readJsonFile env p = .null)
    ∧ (∀ e, env.fs.readFileRes p = .error e →
      readTextFile env p = none ∧ readJsonFile env p = .null)
    ∧ (∀ content e, env.fs.fsExists p = true →
      env.fs.readFileRes p = .ok content → env.jsonParse content = .error e →
      readJsonFile env p = .null)
    ∧ (∀ content, env.fs.fsExists p = true →
      env.fs.readFileRes p = .ok content → readTextFile env p = some content)
    ∧ (∀ content j, env.fs.fsExists p = true →
      env.fs.readFileRes p = .ok content → env.jsonParse content = .ok j →
      readJsonFile env p = j) := by
  unfold readTextFile readJsonFile readTextFileAttempt readJsonFileAttempt
  refine ⟨?_, ?_, ?_, ?_, ?_⟩
  · intro hx; simp [hx]
  · intro e he
    cases hx : env.fs.fsExists p <;> simp [hx, he]
  · intro content e hx hr hp
    simp [hx, hr, hp]
  · intro content hx hr
    simp [hx, hr]
  · intro content j hx hr hp
    simp [hx, hr, hp]

/-- Concrete filesystem for the C3 witness: one missing file, one
unreadable file, one malformed document, one well-formed document. -/
def envC3 : Env where
  fs :=
    { fsExists := fun p => !(p = chars "/missing.json")
      readFileRes := fun p =>
        if p = chars "/denied.json" then .error ⟨chars "EACCES"⟩
        else if p = chars "/bad.json" then .ok (chars "\x7b")
        else .ok (chars "[]")
      statRes := fun _ => .error ⟨chars "ENOENT"⟩
      readdirRes := fun _ => .error ⟨chars "ENOENT"⟩ }
  jsonParse := fun content =>
    if content = chars "[]" then .ok (.arr [])
    else .error ⟨chars "Unexpected end of JSON input"⟩

/-- Witness for C3: the three failure modes produce the same absent
values; the success path returns the text and the parsed value. -/
theorem readers_collapse_failures_witness :
    (readTextFile envC3 (chars "/missing.json") = none
      ∧ readJsonFile envC3 (chars "/missing.json") = .null)
    ∧ (readTextFile envC3 (chars "/denied.json") = none
      ∧ readJsonFile envC3 (chars "/denied.json") = .null)
    ∧ readJsonFile envC3 (chars "/bad.json") = .null
    ∧ readTextFile envC3 (chars "/good.json") = some (chars "[]")
    ∧ readJsonFile envC3 (chars "/good.json") = .arr [] := by
  refine ⟨(readers_collapse_failures envC3 _).1 rfl,
    (readers_collapse_failures envC3 _).2.1 ⟨chars "EACCES"⟩ rfl,
    (readers_collapse_failures envC3 _).2.2.1 (chars "\x7b")
      ⟨chars "Unexpected end of JSON input"⟩ rfl rfl rfl,
    (readers_collapse_failures envC3 _).2.2.2.1 (chars "[]") rfl rfl,
    (readers_collapse_failures envC3 _).2.2.2.2 (chars "[]") (.arr []) rfl rfl rfl⟩

/-! ## Claim C4 -/

/-- C4: the detail operation returns the distinct not-found outcome
exactly when the identifier fails validation or the session directory
does not exist, and otherwise returns a detail record; it is total, so
it never throws in either case. -/
theorem detailRoute_notFound_iff (env : Env) (analysisDir sessionId : Chars) :
    (detailRoute env analysisDir sessionId = .notFound ↔
      (parseSessionId sessionId = none ∨
        env.fs.fsExists (pjoin analysisDir sessionId) = false))
    ∧ ((parseSessionId sessionId ≠ none ∧
        env.fs.fsExists (pjoin analysisDir sessionId) = true) →
      ∃ d, detailRoute env analysisDir sessionId = .success d) := by
  unfold detailRoute getSessionDetail
  cases hp : parseSessionId sessionId with
  | none => simp
  | some pr =>
    obtain ⟨slug, date⟩ := pr
    cases hx : env.fs.fsExists (pjoin analysisDir sessionId) <;> simp [hx]

/-- Concrete filesystem for the C4 witness: exactly one session
directory exists. -/
def envC4 : Env where
  fs :=
    { fsExists := fun p => p = pjoin (chars "/an") (chars "ANL-a-2026-01-01")
      readFileRes := fun _ => .error ⟨chars "ENOENT"⟩
      statRes := fun _ => .error ⟨chars "ENOENT"⟩
      readdirRes := fun _ => .error ⟨chars "ENOENT"⟩ }
  jsonParse := fun _ => .error ⟨chars "Unexpected token"⟩

/-- Witness for C4: a well-formed identifier whose directory is absent
gets the not-found outcome; the existing session gets a detail record. -/
theorem detailRoute_notFound_iff_witness :
    detailRoute envC4 (chars "/an") (chars "ANL-missing-2026-01-01") = .notFound
    ∧ ∃ d, detailRoute envC4 (chars "/an") (chars "ANL-a-2026-01-01") = .success d := by
  constructor
  · exact (detailRoute_notFound_iff envC4 (chars "/an")
      (chars "ANL-missing-2026-01-01")).1.mpr (Or.inr rfl)
  · exact (detailRoute_notFound_iff envC4 (chars "/an")
      (chars "ANL-a-2026-01-01")).2 ⟨by decide, rfl⟩

/-! ## Claim C1 -/

/-- C1 (amended): the two operations do not derive status the same way.
The summary derives `completed` exactly from the existence of the
conclusions file, regardless of whether it parses; the detail derives
`completed` exactly from the conclusions read producing a truthy value
(present, parseable, and not `null`/`false`/`0`/`""`).  They agree when
the file is absent or parses to a truthy value, but disagree on a
present-but-unparsable (or parsed-but-falsy) conclusions artifact. -/
theorem status_derivation (env : Env) (analysisDir name : Chars) :
    (∀ s, getSessionSummary env analysisDir name = .ok (some s) →
      (s.status = .completed ↔
        env.fs.fsExists (concPath analysisDir name) = true))
    ∧ (∀ d, getSessionDetail env analysisDir name = some d →
      (d.status = .completed ↔
        truthy (readJsonFile env (concPath analysisDir name)) = true)) := by
  constructor
  · intro s hs
    unfold getSessionSummary at hs
    split at hs
    · exact absurd hs (by simp)
    · split at hs
      · exact absurd hs (by simp)
      · split at hs
        · exact absurd hs (by simp)
        · obtain rfl := (Option.some.inj (Except.ok.inj hs)).symm
          cases hex : env.fs.fsExists (concPath analysisDir name) <;> simp [hex]
  · intro d hd
    unfold getSessionDetail at hd
    split at hd
    · exact absurd hd (by simp)
    · split at hd
      · exact absurd hd (by simp)
      · obtain rfl := (Option.some.inj hd).symm
        cases ht : truthy (readJsonFile env (concPath analysisDir name)) <;> simp [ht]

/-- Concrete filesystem for the C1 counterexample: the session directory
exists and its `conclusions.json` exists but holds malformed JSON. -/
def envC1 : Env where
  fs :=
    { fsExists := fun p =>
        p = pjoin (chars "/an") (chars "ANL-a-2026-01-01")
          || p = concPath (chars "/an") (chars "ANL-a-2026-01-01")
      readFileRes := fun p =>
        if p = concPath (chars "/an") (chars "ANL-a-2026-01-01") then .ok (chars "\x7b")
        else .error ⟨chars "ENOENT"⟩
      statRes := fun p =>
        if p = pjoin (chars "/an") (chars "ANL-a-2026-01-01") then .ok ⟨true⟩
        else .error ⟨chars "ENOENT"⟩
      readdirRes := fun _ => .ok [chars "ANL-a-2026-01-01"] }
  jsonParse := fun _ => .error ⟨chars "Unexpected end of JSON input"⟩

/-- Counterexample to C1 as stated: with a present but malformed
`conclusions.json` (the read collapses to `null`, i.e. it did not parse
successfully), the summary still reports `completed` while the detail
reports `in_progress` — so status is not `completed` iff the artifact
exists and parsed, and the two operations do not derive it the same
way. -/
theorem status_derivation_counterexample :
    readJsonFile envC1 (concPath (chars "/an") (chars "ANL-a-2026-01-01")) = .null
    ∧ envC1.fs.fsExists (concPath (chars "/an") (chars "ANL-a-2026-01-01")) = true
    ∧ getSessionSummary envC1 (chars "/an") (chars "ANL-a-2026-01-01")
      = .ok (some
          { id := chars "ANL-a-2026-01-01"
            name := chars "ANL-a-2026-01-01"
            topic := .str (chars "a")
            createdAt := chars "2026-01-01"
            status := .completed
            hasConclusions := true })
    ∧ getSessionDetail envC1 (chars "/an") (chars "ANL-a-2026-01-01")
      = some
          { id := chars "ANL-a-2026-01-01"
            name := chars "ANL-a-2026-01-01"
            topic := .str (chars "a")
            createdAt := chars "2026-01-01"
            status := .inProgress
            discussion := none
            conclusions := .null
            explorations := .null
            perspectives := .null }
    ∧ Status.completed ≠ Status.inProgress := by
  exact ⟨rfl, rfl, rfl, rfl, by decide⟩

/-! ## Claim C6 -/

/-- A missing conclusions file reads as `null`. -/
theorem readJsonFile_of_not_exists (env : Env) (p : Chars)
    (h : env.fs.fsExists p = false) : readJsonFile env p = .null := by
  unfold readJsonFile readJsonFileAttempt
  simp [h]

/-- The summary's conditional conclusions read
(`hasConclusions ? await readJsonFile(..) : null`) equals the plain
read, because the reader itself returns `null` on a missing file. -/
theorem summary_conclusions_read (env : Env) (p : Chars) :
    (if env.fs.fsExists p then readJsonFile env p else .null) = readJsonFile env p := by
  cases h : env.fs.fsExists p
  · simp [h, readJsonFile_of_not_exists env p h]
  · simp [h]

/-- C6 (amended): in both operations the derived topic equals the
conclusions artifact's declared `topic` field only when that field is
present *and truthy* (for a string: non-empty); a present but falsy
`topic` (empty string, `0`, `false`, `null`) falls back, like an absent
one, to the slug with separators replaced by spaces. -/
theorem topic_derivation (env : Env) (analysisDir name slug date : Chars)
    (hp : parseSessionId name = some (slug, date)) :
    (∀ s, getSessionSummary env analysisDir name = .ok (some s) →
      s.topic = deriveTopic (readJsonFile env (concPath analysisDir name)) slug)
    ∧ (∀ d, getSessionDetail env analysisDir name = some d →
      d.topic = deriveTopic (readJsonFile env (concPath analysisDir name)) slug)
    ∧ (∀ conclusions v, Json.getField conclusions (chars "topic") = some v →
      truthy v = true → deriveTopic conclusions slug = v)
    ∧ (∀ conclusions v, Json.getField conclusions (chars "topic") = some v →
      truthy v = false → deriveTopic conclusions slug = .str (slugSpaces slug))
    ∧ (∀ conclusions, Json.getField conclusions (chars "topic") = none →
      deriveTopic conclusions slug = .str (slugSpaces slug)) := by
  refine ⟨?_, ?_, ?_, ?_, ?_⟩
  · intro s hs
    unfold getSessionSummary at hs
    rw [summary_conclusions_read] at hs
    split at hs
    · next heq => rw [hp] at heq; exact absurd heq (by simp)
    · next slug2 date2 heq =>
      have h2 := hp.symm.trans heq
      simp only [Option.some.injEq, Prod.mk.injEq] at h2
      obtain ⟨rfl, rfl⟩ := h2
      split at hs
      · exact absurd hs (by simp)
      · split at hs
        · exact absurd hs (by simp)
        · obtain rfl := (Option.some.inj (Except.ok.inj hs)).symm
          rfl
  · intro d hd
    unfold getSessionDetail at hd
    split at hd
    · next heq => rw [hp] at heq; exact absurd heq (by simp)
    · next slug2 date2 heq =>
      have h2 := hp.symm.trans heq
      simp only [Option.some.injEq, Prod.mk.injEq] at h2
      obtain ⟨rfl, rfl⟩ := h2
      split at hd
      · exact absurd hd (by simp)
      · obtain rfl := (Option.some.inj hd).symm
        rfl
  · intro conclusions v hf ht
    unfold deriveTopic
    rw [hf]
    simp [ht]
  · intro conclusions v hf ht
    unfold deriveTopic
    rw [hf]
    simp [ht]
  · intro conclusions hf
    unfold deriveTopic
    rw [hf]

/-- Concrete filesystem for the C6 counterexample: the conclusions
artifact parses to an object whose `topic` field is present but is the
empty string. -/
def envC6 : Env where
  fs :=
    { fsExists := fun p =>
        p = pjoin (chars "/an") (chars "ANL-my-cool-topic-2026-03-01")
          || p = concPath (chars "/an") (chars "ANL-my-cool-topic-2026-03-01")
      readFileRes := fun p =>
        if p = concPath (chars "/an") (chars "ANL-my-cool-topic-2026-03-01") then
          .ok (chars "conclusions-document")
        else .error ⟨chars "ENOENT"⟩
      statRes := fun p =>
        if p = pjoin (chars "/an") (chars "ANL-my-cool-topic-2026-03-01") then .ok ⟨true⟩
        else .error ⟨chars "ENOENT"⟩
      readdirRes := fun _ => .ok [chars "ANL-my-cool-topic-2026-03-01"] }
  jsonParse := fun content =>
    if content = chars "conclusions-document" then
      .ok (.obj [(chars "topic", .str [])])
    else .error ⟨chars "Unexpected token"⟩

/-- Counterexample to C6 as stated: the conclusions artifact declares a
(present) `topic` field holding the empty string, yet the derived topic
is the slug fallback `"my cool topic"`, not that declared value — the
`||` fallback fires on every falsy topic, not only on an absent one. -/
theorem topic_derivation_counterexample :
    readJsonFile envC6 (concPath (chars "/an") (chars "ANL-my-cool-topic-2026-03-01"))
      = .obj [(chars "topic", .str [])]
    ∧ Json.getField (.obj [(chars "topic", .str [])]) (chars "topic") = some (.str [])
    ∧ getSessionSummary envC6 (chars "/an") (chars "ANL-my-cool-topic-2026-03-01")
      = .ok (some
          { id := chars "ANL-my-cool-topic-2026-03-01"
            name := chars "ANL-my-cool-topic-2026-03-01"
            topic := .str (chars "my cool topic")
            createdAt := chars "2026-03-01"
            status := .completed
            hasConclusions := true })
    ∧ Json.str (chars "my cool topic") ≠ .str [] := by
  refine ⟨rfl, rfl, rfl, ?_⟩
  intro h
  exact absurd (Json.str.inj h) (by decide)

/-- Concrete filesystem for the C6 witness: a session with no
conclusions artifact at all. -/
def envC6w : Env where
  fs :=
    { fsExists := fun p => p = pjoin (chars "/an") (chars "ANL-my-cool-topic-2026-03-01")
      readFileRes := fun _ => .error ⟨chars "ENOENT"⟩
      statRes := fun p =>
        if p = pjoin (chars "/an") (chars "ANL-my-cool-topic-2026-03-01") then .ok ⟨true⟩
        else .error ⟨chars "ENOENT"⟩
      readdirRes := fun _ => .ok [chars "ANL-my-cool-topic-2026-03-01"] }
  jsonParse := fun _ => .error ⟨chars "Unexpected token"⟩

/-- Witness for C6 (amended), at the claim's own instance: identifier
`ANL-my-cool-topic-2026-03-01` with no conclusions artifact derives
topic `"my cool topic"`. -/
theorem topic_derivation_witness :
    getSessionSummary envC6w (chars "/an") (chars "ANL-my-cool-topic-2026-03-01")
      = .ok (some
          { id := chars "ANL-my-cool-topic-2026-03-01"
            name := chars "ANL-my-cool-topic-2026-03-01"
            topic := .str (chars "my cool topic")
            createdAt := chars "2026-03-01"
            status := .inProgress
            hasConclusions := false })
    ∧ deriveTopic .null (chars "my-cool-topic") = .str (chars "my cool topic") := by
  refine ⟨rfl, ?_⟩
  exact ((topic_derivation envC6w (chars "/an") (chars "ANL-my-cool-topic-2026-03-01")
    (chars "my-cool-topic") (chars "2026-03-01") (by decide)).1
    { id := chars "ANL-my-cool-topic-2026-03-01"
      name := chars "ANL-my-cool-topic-2026-03-01"
      topic := .str (chars "my cool topic")
      createdAt := chars "2026-03-01"
      status := .inProgress
      hasConclusions := false } rfl).symm

/-! ## Claim C2 -/

/-- Whether the list route answered with the 200 success envelope. -/
def ListResult.isSuccess : ListResult → Bool
  | .success _ => true
  | .failure _ => false

/-- A folder's contribution to the list when its processing does not
throw: its summary, or `none` when it is skipped. -/
def summaryOpt (env : Env) (analysisDir folder : Chars) :
    Option AnalysisSessionSummary :=
  match getSessionSummary env analysisDir folder with
  | .ok o => o
  | .error _ => none

/-- When no folder's processing throws, the collection loop succeeds and
each folder contributes independently. -/
theorem collectSummaries_eq (env : Env) (dir : Chars) :
    ∀ folders : List Chars,
      (∀ f ∈ folders, ∀ e, getSessionSummary env dir f ≠ .error e) →
      collectSummaries env dir folders = .ok (folders.filterMap (summaryOpt env dir)) := by
  intro folders
  induction folders with
  | nil => intro _; rfl
  | cons f rest ih =>
    intro hok
    have hrest := ih (fun g hg e => hok g (List.mem_cons_of_mem f hg) e)
    cases hf : getSessionSummary env dir f with
    | error e => exact absurd hf (hok f (List.mem_cons_self f rest) e)
    | ok o =>
      cases o with
      | none =>
        simp only [collectSummaries, hf, hrest, List.filterMap_cons, summaryOpt]
        rfl
      | some x =>
        simp only [collectSummaries, hf, hrest, List.filterMap_cons, summaryOpt]
        rfl

/-- C2 (amended): a failure that the per-folder processing absorbs — an
invalid folder name, a non-directory entry, or a conclusions read/parse
failure — only degrades or omits that one session, and the list
operation returns the success envelope with the remaining sessions; but
a thrown `stat` error for one folder is *not* absorbed: it propagates to
the route's catch and aborts the whole list with the failure envelope. -/
theorem listSessions_per_folder (env : Env) (analysisDir : Chars) (folders : List Chars)
    (hex : env.fs.fsExists analysisDir = true)
    (hrd : env.fs.readdirRes analysisDir = .ok folders)
    (hok : ∀ f ∈ folders, ∀ e, getSessionSummary env analysisDir f ≠ .error e) :
    listSessions env analysisDir =
      .success ((folders.filterMap (summaryOpt env analysisDir)).insertionSort byDateDesc) := by
  unfold listSessions
  rw [hex, hrd]
  simp [collectSummaries_eq env analysisDir folders hok]

/-- Concrete filesystem for the C2 counterexample: two well-named
session folders; `stat` throws `EACCES` on the first and succeeds on the
second. -/
def envC2 : Env where
  fs :=
    { fsExists := fun p => p = chars "/an"
      readFileRes := fun _ => .error ⟨chars "ENOENT"⟩
      statRes := fun p =>
        if p = pjoin (chars "/an") (chars "ANL-b-2026-01-02") then .ok ⟨true⟩
        else .error ⟨chars "EACCES"⟩
      readdirRes := fun p =>
        if p = chars "/an" then .ok [chars "ANL-a-2026-01-01", chars "ANL-b-2026-01-02"]
        else .error ⟨chars "ENOENT"⟩ }
  jsonParse := fun _ => .error ⟨chars "Unexpected token"⟩

/-- Counterexample to C2 as stated: the second folder processes fine,
yet the `stat` failure on the first aborts the whole list — the route
answers the 500 failure envelope, not a success envelope with the
remaining session. -/
theorem listSessions_per_folder_counterexample :
    getSessionSummary envC2 (chars "/an") (chars "ANL-b-2026-01-02")
      = .ok (some
          { id := chars "ANL-b-2026-01-02"
            name := chars "ANL-b-2026-01-02"
            topic := .str (chars "b")
            createdAt := chars "2026-01-02"
            status := .inProgress
            hasConclusions := false })
    ∧ listSessions envC2 (chars "/an") = .failure ⟨chars "EACCES"⟩
    ∧ (listSessions envC2 (chars "/an")).isSuccess = false := by
  exact ⟨rfl, rfl, rfl⟩

/-- Concrete filesystem for the C2 witness: one folder with an invalid
name (skipped) and one healthy session folder. -/
def envC2w : Env where
  fs :=
    { fsExists := fun p => p = chars "/an"
      readFileRes := fun _ => .error ⟨chars "ENOENT"⟩
      statRes := fun p =>
        if p = pjoin (chars "/an") (chars "ANL-b-2026-01-02") then .ok ⟨true⟩
        else .error ⟨chars "ENOENT"⟩
      readdirRes := fun p =>
        if p = chars "/an" then .ok [chars "not-a-session", chars "ANL-b-2026-01-02"]
        else .error ⟨chars "ENOENT"⟩ }
  jsonParse := fun _ => .error ⟨chars "Unexpected token"⟩

/-- Witness for C2 (amended): the invalid name is skipped without
aborting; the list succeeds with the one remaining session. -/
theorem listSessions_per_folder_witness :
    listSessions envC2w (chars "/an")
      = .success ((([chars "not-a-session", chars "ANL-b-2026-01-02"].filterMap
          (summaryOpt envC2w (chars "/an"))).insertionSort byDateDesc))
    ∧ listSessions envC2w (chars "/an")
      = .success [
          { id := chars "ANL-b-2026-01-02"
            name := chars "ANL-b-2026-01-02"
            topic := .str (chars "b")
            createdAt := chars "2026-01-02"
            status := .inProgress
            hasConclusions := false }] := by
  constructor
  · exact listSessions_per_folder envC2w (chars "/an")
      [chars "not-a-session", chars "ANL-b-2026-01-02"] rfl rfl
      (by
        intro f hf e h
        rcases List.mem_cons.mp hf with rfl | hf2
        · exact nomatch h
        · rcases List.mem_cons.mp hf2 with rfl | hf3
          · exact nomatch h
          · exact absurd hf3 (List.not_mem_nil f))
  · rfl

/-! ## Claim C7 -/

/-- C7: every success result of the list operation is sorted by
`createdAt` descending (most recent first) under the total, transitive
— hence deterministic — comparator order, and is a permutation of the
summaries collected in enumeration order. -/
theorem listSessions_sorted (env : Env) (analysisDir : Chars)
    (sessions : List AnalysisSessionSummary)
    (h : listSessions env analysisDir = .success sessions) :
    sessions.Pairwise byDateDesc
    ∧ ∀ folders collected,
        env.fs.fsExists analysisDir = true →
        env.fs.readdirRes analysisDir = .ok folders →
        collectSummaries env analysisDir folders = .ok collected →
        sessions.Perm collected := by
  constructor
  · unfold listSessions at h
    split at h
    · obtain rfl := (ListResult.success.inj h).symm
      exact List.Pairwise.nil
    · split at h
      · exact absurd h (by simp)
      · split at h
        · exact absurd h (by simp)
        · obtain rfl := (ListResult.success.inj h).symm
          exact List.sorted_insertionSort byDateDesc _
  · intro folders collected hex hrd hc
    unfold listSessions at h
    rw [hex, hrd] at h
    simp only [Bool.true_eq_false, if_false, hc] at h
    obtain rfl := (ListResult.success.inj h).symm
    exact List.perm_insertionSort byDateDesc collected

/-- Concrete filesystem for the C7 witness: three sessions dated
2026-01-01, 2026-02-15 and 2025-12-31, enumerated in that order. -/
def envC7 : Env where
  fs :=
    { fsExists := fun p => p = chars "/an"
      readFileRes := fun _ => .error ⟨chars "ENOENT"⟩
      statRes := fun p =>
        if p = pjoin (chars "/an") (chars "ANL-a-2026-01-01") then .ok ⟨true⟩
        else if p = pjoin (chars "/an") (chars "ANL-b-2026-02-15") then .ok ⟨true⟩
        else if p = pjoin (chars "/an") (chars "ANL-c-2025-12-31") then .ok ⟨true⟩
        else .error ⟨chars "ENOENT"⟩
      readdirRes := fun p =>
        if p = chars "/an" then
          .ok [chars "ANL-a-2026-01-01", chars "ANL-b-2026-02-15", chars "ANL-c-2025-12-31"]
        else .error ⟨chars "ENOENT"⟩ }
  jsonParse := fun _ => .error ⟨chars "Unexpected token"⟩

/-- Witness for C7 at the claim's instance: dates 2026-01-01,
2026-02-15, 2025-12-31 come back in the order
[2026-02-15, 2026-01-01, 2025-12-31], and that result is pairwise
descending. -/
theorem listSessions_sorted_witness :
    listSessions envC7 (chars "/an")
      = .success [
          { id := chars "ANL-b-2026-02-15", name := chars "ANL-b-2026-02-15"
            topic := .str (chars "b"), createdAt := chars "2026-02-15"
            status := .inProgress, hasConclusions := false },
          { id := chars "ANL-a-2026-01-01", name := chars "ANL-a-2026-01-01"
            topic := .str (chars "a"), createdAt := chars "2026-01-01"
            status := .inProgress, hasConclusions := false },
          { id := chars "ANL-c-2025-12-31", name := chars "ANL-c-2025-12-31"
            topic := .str (chars "c"), createdAt := chars "2025-12-31"
            status := .inProgress, hasConclusions := false }]
    ∧ ([
          { id := chars "ANL-b-2026-02-15", name := chars "ANL-b-2026-02-15"
            topic := .str (chars "b"), createdAt := chars "2026-02-15"
            status := .inProgress, hasConclusions := false },
          { id := chars "ANL-a-2026-01-01", name := chars "ANL-a-2026-01-01"
            topic := .str (chars "a"), createdAt := chars "2026-01-01"
            status := .inProgress, hasConclusions := false },
          { id := chars "ANL-c-2025-12-31", name := chars "ANL-c-2025-12-31"
            topic := .str (chars "c"), createdAt := chars "2025-12-31"
            status := .inProgress, hasConclusions := false }] :
        List AnalysisSessionSummary).Pairwise byDateDesc := by
  refine ⟨rfl, ?_⟩
  exact (listSessions_sorted envC7 (chars "/an") _ rfl).1

/-! ## Claim C10 -/

/-- C10: the sort comparator looks only at the `createdAt` strings, and
the sort is stable (ES2019 `Array.prototype.sort`; modelled by the
stable `insertionSort`, the unique stable sort under this total
preorder), so sessions with equal dates keep their enumeration-order
relative positions: the equal-date subsequence of the result equals the
equal-date subsequence of the collected summaries. -/
theorem listSessions_stable (env : Env) (analysisDir : Chars) (folders : List Chars)
    (collected : List AnalysisSessionSummary) (d : Chars)
    (hex : env.fs.fsExists analysisDir = true)
    (hrd : env.fs.readdirRes analysisDir = .ok folders)
    (hc : collectSummaries env analysisDir folders = .ok collected) :
    (∀ a b c : AnalysisSessionSummary, a.createdAt = b.createdAt →
      (byDateDesc a c ↔ byDateDesc b c) ∧ (byDateDesc c a ↔ byDateDesc c b))
    ∧ ∃ sessions, listSessions env analysisDir = .success sessions
      ∧ sessions.filter (fun s => s.createdAt = d)
        = collected.filter (fun s => s.createdAt = d) := by
  constructor
  · intro a b c hab
    unfold byDateDesc
    rw [hab]
    exact ⟨Iff.rfl, Iff.rfl⟩
  · refine ⟨(collected.insertionSort byDateDesc), ?_, ?_⟩
    · unfold listSessions
      rw [hex, hrd]
      simp only [Bool.true_eq_false, if_false, hc]
    · set p : AnalysisSessionSummary → Bool := fun s => s.createdAt = d with hp
      have hmemA : ∀ a ∈ collected.filter p, a.createdAt = d := by
        intro a ha
        have := (List.mem_filter.mp ha).2
        simpa [hp] using this
      have hpair : (collected.filter p).Pairwise byDateDesc := by
        apply List.pairwise_of_forall_mem_list
        intro a ha b hb
        unfold byDateDesc
        rw [hmemA a ha, hmemA b hb]
        exact lexLe_refl d
      have hsub : List.Sublist (collected.filter p) (collected.insertionSort byDateDesc) :=
        List.sublist_insertionSort hpair (List.filter_sublist collected)
      have hsub2 : List.Sublist (collected.filter p)
          ((collected.insertionSort byDateDesc).filter p) := by
        have := List.Sublist.filter p hsub
        rwa [List.filter_filter, show (fun a => p a && p a) = p from by
          funext a; cases p a <;> simp] at this
      have hperm : ((collected.insertionSort byDateDesc).filter p).Perm (collected.filter p) :=
        (List.perm_insertionSort byDateDesc collected).filter p
      exact (List.Sublist.eq_of_length hsub2 hperm.symm.length_eq).symm

/-- Concrete filesystem for the C10 witness: two sessions share the
date 2026-01-01 and are enumerated as `a` then `b`. -/
def envC10 : Env where
  fs :=
    { fsExists := fun p => p = chars "/an"
      readFileRes := fun _ => .error ⟨chars "ENOENT"⟩
      statRes := fun p =>
        if p = pjoin (chars "/an") (chars "ANL-a-2026-01-01") then .ok ⟨true⟩
        else if p = pjoin (chars "/an") (chars "ANL-b-2026-01-01") then .ok ⟨true⟩
        else .error ⟨chars "ENOENT"⟩
      readdirRes := fun p =>
        if p = chars "/an" then
          .ok [chars "ANL-a-2026-01-01", chars "ANL-b-2026-01-01"]
        else .error ⟨chars "ENOENT"⟩ }
  jsonParse := fun _ => .error ⟨chars "Unexpected token"⟩

/-- Witness for C10: the two equal-date sessions come back in
enumeration order (`a` before `b`), and the equal-date subsequence of
the result equals that of the enumeration-order collection. -/
theorem listSessions_stable_witness :
    listSessions envC10 (chars "/an")
      = .success [
          { id := chars "ANL-a-2026-01-01", name := chars "ANL-a-2026-01-01"
            topic := .str (chars "a"), createdAt := chars "2026-01-01"
            status := .inProgress, hasConclusions := false },
          { id := chars "ANL-b-2026-01-01", name := chars "ANL-b-2026-01-01"
            topic := .str (chars "b"), createdAt := chars "2026-01-01"
            status := .inProgress, hasConclusions := false }]
    ∧ ∃ sessions, listSessions envC10 (chars "/an") = .success sessions
      ∧ sessions.filter (fun s => s.createdAt = chars "2026-01-01")
        = [
            { id := chars "ANL-a-2026-01-01", name := chars "ANL-a-2026-01-01"
              topic := .str (chars "a"), createdAt := chars "2026-01-01"
              status := .inProgress, hasConclusions := false },
            { id := chars "ANL-b-2026-01-01", name := chars "ANL-b-2026-01-01"
              topic := .str (chars "b"), createdAt := chars "2026-01-01"
              status := .inProgress, hasConclusions := false }].filter
            (fun s => s.createdAt = chars "2026-01-01") := by
  refine ⟨rfl, ?_⟩
  exact (listSessions_stable envC10 (chars "/an")
    [chars "ANL-a-2026-01-01", chars "ANL-b-2026-01-01"]
    [
      { id := chars "ANL-a-2026-01-01", name := chars "ANL-a-2026-01-01"
        topic := .str (chars "a"), createdAt := chars "2026-01-01"
        status := .inProgress, hasConclusions := false },
      { id := chars "ANL-b-2026-01-01", name := chars "ANL-b-2026-01-01"
        topic := .str (chars "b"), createdAt := chars "2026-01-01"
        status := .inProgress, hasConclusions := false }]
    (chars "2026-01-01") rfl rfl rfl).2

/-! ## Claim C8 -/

/-- C8: the primitive renderer classifies `null`/`undefined` as the
explicit empty marker, booleans as two-state badges, numbers as
verbatim number text, URL-prefixed strings as links, other strings
longer than 100 characters as pre-wrapped blocks, and every remaining
string as inline text. -/
theorem renderPrimitive_classification :
    renderPrimitive .null = .nullMarker
    ∧ renderPrimitive .undef = .nullMarker
    ∧ (∀ b, renderPrimitive (.bool b) = .boolBadge b)
    ∧ (∀ n, renderPrimitive (.num n) = .numberText n)
    ∧ (∀ s, isUrlString s = true → renderPrimitive (.str s) = .link s)
    ∧ (∀ s, isUrlString s = false → 100 < s.length →
        renderPrimitive (.str s) = .preWrapped s)
    ∧ (∀ s, isUrlString s = false → s.length ≤ 100 →
        renderPrimitive (.str s) = .inlineText s) := by
  refine ⟨rfl, rfl, fun b => rfl, fun n => rfl, ?_, ?_, ?_⟩
  · intro s h
    simp [renderPrimitive, h]
  · intro s h h2
    simp [renderPrimitive, h, h2]
  · intro s h h2
    simp [renderPrimitive, h, Nat.not_lt.mpr h2]

set_option maxRecDepth 4000 in
/-- Witness for C8 at the claim's instances: `"https://example.com"` is
a link, 150 repeated characters are a pre-wrapped block, `42` is a
plain number, `null` is the explicit empty marker. -/
theorem renderPrimitive_classification_witness :
    renderPrimitive (.str (chars "https://example.com"))
      = .link (chars "https://example.com")
    ∧ renderPrimitive (.str (List.replicate 150 'x'))
      = .preWrapped (List.replicate 150 'x')
    ∧ renderPrimitive (.num 42) = .numberText 42
    ∧ renderPrimitive .null = .nullMarker := by
  refine ⟨?_, ?_, ?_, ?_⟩
  · exact renderPrimitive_classification.2.2.2.2.1 _ (by decide)
  · exact renderPrimitive_classification.2.2.2.2.2.1 _ (by decide) (by decide)
  · exact renderPrimitive_classification.2.2.2.1 42
  · exact renderPrimitive_classification.1

/-! ## Claim C9 -/

/-- C9 (amended): an empty array renders as the explicit empty-list
marker; a non-empty all-primitive array as compact badges in element
order; any other array as a default-expanded indexed list with 1-based
display indices in which each *object* element recurses into Object
rendering but every other element — nested arrays included — goes to
the primitive renderer (a nested array thus falls to its
string-coercion fallback, not to Array rendering). -/
theorem renderArray_classification (items : List Json) :
    (items = [] → renderArray items = .emptyList)
    ∧ (items ≠ [] → items.all isPrimitiveVal = true →
        renderArray items = .badgeRow items)
    ∧ (items ≠ [] → items.all isPrimitiveVal = false →
        renderArray items = .indexedList true (List.enumFrom 1 (items.map renderElement)))
    ∧ (∀ fields, renderElement (.obj fields) = renderObject fields)
    ∧ (∀ v, isObjectVal v = false → renderElement v = renderPrimitive v) := by
  refine ⟨?_, ?_, ?_, ?_, ?_⟩
  · intro h
    subst h
    rw [renderArray_def]
    rfl
  · intro h1 h2
    rw [renderArray_def]
    simp [List.isEmpty_iff, h1, h2]
  · intro h1 h2
    rw [renderArray_def]
    simp [List.isEmpty_iff, h1, h2]
  · intro fields
    simp [renderElement]
  · intro v h
    cases v <;> simp_all [renderElement, isObjectVal]

/-- Counterexample to C9 as stated: in the mixed array
`[[1], {"a": 1}]` the nested-array element does not recurse into Array
rendering — it is handed to the primitive renderer's string-coercion
fallback — whereas Array rendering of `[1]` would be a badge row. -/
theorem renderArray_classification_counterexample :
    renderArray [.arr [.num 1], .obj [(chars "a", .num 1)]]
      = .indexedList true
          [(1, .stringCoercion (.arr [.num 1])),
           (2, .objectCard [(chars "A", .numberText 1)])]
    ∧ renderArray [.num 1] = .badgeRow [.num 1]
    ∧ RenderNode.stringCoercion (.arr [.num 1]) ≠ .badgeRow [.num 1] := by
  refine ⟨?_, ?_, ?_⟩
  · simp [renderArray_def, renderObject_def, renderElement, renderCardItem,
      renderPrimitive, isPrimitiveVal, formatLabel, jsDot, chars, List.enumFrom]
  · rw [renderArray_def]
    rfl
  · intro h
    exact RenderNode.noConfusion h

/-- Witness for C9 (amended) at the claim's instances: `[1, 2, 3]`
renders as compact badges; `[{"a":1}, {"a":2}]` renders as an expanded
indexed list with two entries. -/
theorem renderArray_classification_witness :
    renderArray [.num 1, .num 2, .num 3] = .badgeRow [.num 1, .num 2, .num 3]
    ∧ renderArray [.obj [(chars "a", .num 1)], .obj [(chars "a", .num 2)]]
      = .indexedList true
          [(1, renderElement (.obj [(chars "a", .num 1)])),
           (2, renderElement (.obj [(chars "a", .num 2)]))] := by
  constructor
  · exact (renderArray_classification _).2.1 (by simp) rfl
  · exact (renderArray_classification _).2.2.1 (by simp) rfl

end CCW
